import Mathlib

/-!
Shallow embedding of the VehicleModel simulation engine
(src/models/vehicle_model.py and the pluggable energy-contribution models).

Modelling conventions:
* A pint `Quantity` is modelled by its magnitude in coherent SI units, as a
  rational number `ℚ`; unit conversions (`.to("watts")`, `.to("Wh")`, ...)
  change only the representation of a quantity, never its abstract value,
  so they are identities here.
* The parameter store `dict[str, PlainQuantity[float]]` is an
  insertion-ordered association list from `String` to `ℚ`; `dict.__setitem__`
  overwrites in place, `dict.__getitem__` raises `KeyError` when absent
  (modelled by `Option`).
* A model's `update(params, timestep)` mutates the store in place and either
  returns an energy delta or raises.  It is embedded as a function
  `Store → ℚ → Option ℚ × Store`: the second component is the store after the
  call, including every write performed before an exception was raised
  (Python dict mutation is not rolled back by an exception).
* Rational division is total (`x / 0 = 0`) whereas Python raises
  `ZeroDivisionError`; the theorems below never rely on division by zero.
-/

namespace VehicleSim

/-- Entry list lookup: first binding of the key, as in `dict.__getitem__`. -/
def getEntry : List (String × ℚ) → String → Option ℚ
  | [], _ => none
  | (k', v) :: rest, k => if k' = k then some v else getEntry rest k

/-- Entry list overwrite: replaces the first binding of the key in place
(Python dicts keep the original insertion position), appends otherwise. -/
def setEntry : List (String × ℚ) → String → ℚ → List (String × ℚ)
  | [], k, v => [(k, v)]
  | (k', v') :: rest, k, v =>
      if k' = k then (k, v) :: rest else (k', v') :: setEntry rest k v

/-- The shared mutable parameter store (`self.params`). -/
structure Store where
  entries : List (String × ℚ)
deriving DecidableEq

def Store.get (st : Store) (k : String) : Option ℚ := getEntry st.entries k

def Store.set (st : Store) (k : String) (v : ℚ) : Store := ⟨setEntry st.entries k v⟩

/-- An `EnergyModel.update` method: store and timestep in, optional energy
delta (none = exception) and post-call store out. -/
abbrev ModelFn := Store → ℚ → Option ℚ × Store

/-! ## src/models/drag.py -/

/-- `SCPDragModel.update`: optional wind modifier scales the drag
coefficient; writes `drag_power = -(0.5 ρ v³ c_d A)`; returns
`drag_power * timestep`.  All reads precede the single write, so a missing
required key raises with the store unchanged. -/
def SCPDragModel.update : ModelFn := fun st t =>
  match st.get "air_density", st.get "velocity", st.get "drag_coeff",
      st.get "frontal_area" with
  | some rho, some v, some cd, some a =>
    let drag_coeff_effective :=
      match st.get "weather_wind_modifier" with
      | some w => cd * w
      | none => cd
    let drag_power := -(0.5 * rho * v ^ 3 * drag_coeff_effective * a)
    (some (drag_power * t), st.set "drag_power" drag_power)
  | _, _, _, _ => (none, st)

/-! ## src/models/rr.py -/

/-- `SCPRollingResistanceModel.update`: per-wheel rolling-resistance losses,
`rr_power = 2 * f_rr_power + r_rr_power`, returns `rr_power * timestep`.
The writes are staged exactly as in the source so that a key missing late
(e.g. `r_wheel_weight`) raises after the earlier fields were written. -/
def SCPRollingResistanceModel.update : ModelFn := fun st t =>
  match st.get "mu_rr", st.get "mu2_rr", st.get "velocity" with
  | some mu, some mu2, some v =>
    let total_mu := mu + mu2 * v
    let st1 := st.set "total_mu" total_mu
    match st1.get "f_wheel_weight", st1.get "grav_accel" with
    | some fw, some g =>
      let f_normal_force := fw * g
      let st2 := st1.set "f_normal_force" f_normal_force
      let f_rr_force := f_normal_force * total_mu
      let st3 := st2.set "f_rr_force" f_rr_force
      let f_rr_power := -(f_rr_force * v)
      let st4 := st3.set "f_rr_power" f_rr_power
      match st4.get "r_wheel_weight" with
      | some rw =>
        let r_normal_force := rw * g
        let st5 := st4.set "r_normal_force" r_normal_force
        let r_rr_force := r_normal_force * total_mu
        let st6 := st5.set "r_rr_force" r_rr_force
        let r_rr_power := -(r_rr_force * v)
        let st7 := st6.set "r_rr_power" r_rr_power
        let rr_power := 2 * f_rr_power + r_rr_power
        let st8 := st7.set "rr_power" rr_power
        (some (rr_power * t), st8)
      | none => (none, st4)
    | _, _ => (none, st1)
  | _, _, _ => (none, st)

/-! ## src/models/lv_draw_model.py -/

/-- The fixed component list of `LVDrawModel.__init__`. -/
def lvComponents : List String :=
  ["vcu", "controls_leader", "horn", "lighting", "pi_&_display", "pedals",
   "camera_hub", "battery_box", "mppt_a", "mppt_b", "mppt_c",
   "motor_controller", "telemetry_leader", "pump", "DC_DC_converter"]

/-- One summand of `LVDrawModel.update`'s generator:
`params.get(component + suffix, params.get(component, Q_(0, "A")))`. -/
def lvComponentCurrent (st : Store) (peak : Bool) (c : String) : ℚ :=
  match st.get (if peak then c ++ "_peak" else c) with
  | some v => v
  | none =>
    match st.get c with
    | some v => v
    | none => 0

/-- `LVDrawModel.update`: sums the named component currents (peak variants
when `enable_peak_draw == 1`), writes `lv_draw_power = lv_voltage * total`,
returns `-lv_draw_power * timestep`.  Absent component currents fall back to
`Q_(0, "A")`; only `lv_voltage` can raise. -/
def LVDrawModel.update : ModelFn := fun st t =>
  let mode : ℚ := match st.get "enable_peak_draw" with | some v => v | none => 0
  let peak := decide (mode = 1)
  let total_current :=
    lvComponents.foldl (fun acc c => acc + lvComponentCurrent st peak c) 0
  match st.get "lv_voltage" with
  | some v =>
    let lv_draw_power := v * total_current
    (some (-lv_draw_power * t), st.set "lv_draw_power" lv_draw_power)
  | none => (none, st)

/-! ## src/models/battery.py -/

/-- `ESRBatteryLossModel.update`: pack resistance from cell topology
(divided by the temperature modifier when present), `current_draw =
(drag_power + rr_power) / battery_voltage_nominal`, `battery_power_loss =
current_draw² * pack_resistance`; returns `-battery_power_loss * timestep`.
`pack_resistance` is written before `drag_power`/`rr_power`/voltage are
read, so a missing load key raises with `pack_resistance` already set. -/
def ESRBatteryLossModel.update : ModelFn := fun st t =>
  let temp_modifier := st.get "weather_temp_modifier"
  match st.get "cell_internal_impedance", st.get "cells_in_parallel",
      st.get "cells_in_series" with
  | some imp, some par, some ser =>
    let base_resistance := imp / par * ser
    let pack_resistance :=
      match temp_modifier with
      | some m => base_resistance / m
      | none => base_resistance
    let st1 := st.set "pack_resistance" pack_resistance
    match st1.get "drag_power", st1.get "rr_power",
        st1.get "battery_voltage_nominal" with
    | some dp, some rp, some vn =>
      let current_draw := (dp + rp) / vn
      let st2 := st1.set "current_draw" current_draw
      let battery_power_loss := current_draw ^ 2 * pack_resistance
      let st3 := st2.set "battery_power_loss" battery_power_loss
      (some (-battery_power_loss * t), st3)
    | _, _, _ => (none, st1)
  | _, _, _ => (none, st)

/-- `BatteryModel.update` simply delegates to its `ESRBatteryLossModel`. -/
def BatteryModel.update : ModelFn := fun st t => ESRBatteryLossModel.update st t

/-! ## src/models/array.py -/

/-- `SCPArrayModel._incidence_factor`: solar-elevation proxy
`sin α = sin lat sin dec + cos lat cos dec cos h` with zero declination and
hour angle `h = (t/3600 - 12) * π/12`, clamped to `[-1, 1]`, returning `0`
when the sun is at or below the horizon.  (This method is defined on the
class but never invoked by `SCPArrayModel.update`.) -/
noncomputable def SCPArrayModel.incidence_factor (lat_deg timestamp : ℚ) : ℝ :=
  let lat : ℝ := (lat_deg : ℝ) * Real.pi / 180
  let time_of_day_hours : ℝ := (timestamp : ℝ) / 3600
  let h : ℝ := (time_of_day_hours - 12) * (Real.pi / 12)
  let dec : ℝ := 0
  let sin_alpha :=
    Real.sin lat * Real.sin dec + Real.cos lat * Real.cos dec * Real.cos h
  let sin_alpha := max (-1) (min 1 sin_alpha)
  if sin_alpha ≤ 0 then 0 else sin_alpha

/-- `SCPArrayModel.update`: writes
`array_power = num_cells * p_mpp * cell_efficiency` and returns
`array_power * timestep`; the incidence factor is never consulted. -/
def SCPArrayModel.update : ModelFn := fun st t =>
  match st.get "num_cells", st.get "p_mpp", st.get "cell_efficiency" with
  | some n, some p, some e =>
    let array_power := n * p * e
    (some (array_power * t), st.set "array_power" array_power)
  | _, _, _ => (none, st)

/-! ## src/models/vehicle_model.py -/

/-- The engine object.  `prev_params` (a shallow snapshot used only by
`print_params_diff`) has no effect on any modelled behaviour and is
omitted. -/
structure VehicleModel where
  init_params : Store
  models : List ModelFn
  battery_model : ModelFn
  params : Store

/-- `VehicleModel.__init__`: default battery model, empty model list,
`params = copy.deepcopy(init_params)` (a deep copy is value-equal). -/
def VehicleModel.init (init_params : Store) : VehicleModel :=
  { init_params := init_params
    models := []
    battery_model := BatteryModel.update
    params := init_params }

/-- `VehicleModel.reset`: `self.params = copy.deepcopy(self.init_params)`. -/
def VehicleModel.reset (m : VehicleModel) : VehicleModel :=
  { m with params := m.init_params }

/-- `VehicleModel.add_model`: appends to the registration list. -/
def VehicleModel.add_model (m : VehicleModel) (f : ModelFn) : VehicleModel :=
  { m with models := m.models ++ [f] }

/-- `VehicleModel.set_battery_model`. -/
def VehicleModel.set_battery_model (m : VehicleModel) (f : ModelFn) : VehicleModel :=
  { m with battery_model := f }

/-- One engine line `self.params["total_energy"] += m.update(self.params,
self.params["timestep"])`.  CPython's augmented subscript assignment loads
the target `self.params["total_energy"]` *before* evaluating the right-hand
side, so the pre-call value of `total_energy` is read first, then
`timestep`, then the model runs, and finally `total_energy` is stored as
the pre-call value plus the returned delta (overwriting any write the model
itself made to `total_energy`).  `Except.error` carries the store at the
moment the exception escaped. -/
def stepModel (f : ModelFn) (st : Store) : Except Store Store :=
  match st.get "total_energy" with
  | none => .error st
  | some te =>
    match st.get "timestep" with
    | none => .error st
    | some ts =>
      match f st ts with
      | (none, st') => .error st'
      | (some d, st') => .ok (st'.set "total_energy" (te + d))

/-- The `for m in self.models` loop of `VehicleModel.update`. -/
def runModels : List ModelFn → Store → Except Store Store
  | [], st => .ok st
  | f :: rest, st =>
    match stepModel f st with
    | .error st' => .error st'
    | .ok st' => runModels rest st'

/-- The final line of `VehicleModel.update`:
`total_energy = max(min(total_energy, battery_max_energy), Q_(0, "Wh"))`. -/
def clampStep (st : Store) : Except Store Store :=
  match st.get "total_energy", st.get "battery_max_energy" with
  | some te, some bmax => .ok (st.set "total_energy" (max (min te bmax) 0))
  | _, _ => .error st

/-- `VehicleModel.update` on the store: registered models in order, then the
battery model, then the clamp. -/
def updateStore (models : List ModelFn) (battery_model : ModelFn)
    (st : Store) : Except Store Store :=
  match runModels models st with
  | .error st' => .error st'
  | .ok st1 =>
    match stepModel battery_model st1 with
    | .error st' => .error st'
    | .ok st2 => clampStep st2

/-- `VehicleModel.update`: an escaping exception (`Except.error`) leaves the
partially mutated store in `self.params`. -/
def VehicleModel.update (m : VehicleModel) : Except VehicleModel VehicleModel :=
  match updateStore m.models m.battery_model m.params with
  | .ok st => .ok { m with params := st }
  | .error st => .error { m with params := st }

/-- A sequence of `update()` calls by the driver; an escaping exception
aborts the remaining calls. -/
def iterateUpdates : Nat → VehicleModel → VehicleModel
  | 0, m => m
  | n + 1, m =>
    match m.update with
    | .ok m' => iterateUpdates n m'
    | .error m' => m'

end VehicleSim

namespace VehicleSim

/-! ## Store lemmas -/

theorem getEntry_setEntry_self (l : List (String × ℚ)) (k : String) (v : ℚ) :
    getEntry (setEntry l k v) k = some v := by
  induction l with
  | nil => simp [setEntry, getEntry]
  | cons p rest ih =>
    obtain ⟨k', v'⟩ := p
    by_cases h : k' = k
    · simp [setEntry, getEntry, h]
    · simp [setEntry, getEntry, h, ih]

theorem getEntry_setEntry_ne (l : List (String × ℚ)) (k k'' : String) (v : ℚ)
    (h : k ≠ k'') : getEntry (setEntry l k v) k'' = getEntry l k'' := by
  induction l with
  | nil => simp [setEntry, getEntry, h]
  | cons p rest ih =>
    obtain ⟨k', v'⟩ := p
    by_cases hk : k' = k
    · subst hk
      simp [setEntry, getEntry, h]
    · simp only [setEntry, hk, if_false, getEntry]
      by_cases hk2 : k' = k''
      · simp [hk2]
      · simp [hk2, ih]

theorem Store.get_set_self (st : Store) (k : String) (v : ℚ) :
    (st.set k v).get k = some v :=
  getEntry_setEntry_self st.entries k v

theorem Store.get_set_ne (st : Store) (k k'' : String) (v : ℚ) (h : k ≠ k'') :
    (st.set k v).get k'' = st.get k'' :=
  getEntry_setEntry_ne st.entries k k'' v h

/-! ## Run of the model loop that also records each returned delta -/

/-- Mirror of `runModels` that records, in invocation order, the energy
delta each model returned (used to state what the loop accumulates). -/
def runDeltas : List ModelFn → Store → Except Store (List ℚ × Store)
  | [], st => .ok ([], st)
  | f :: rest, st =>
    match st.get "total_energy" with
    | none => .error st
    | some te =>
      match st.get "timestep" with
      | none => .error st
      | some ts =>
        match f st ts with
        | (none, st') => .error st'
        | (some d, st') =>
          match runDeltas rest (st'.set "total_energy" (te + d)) with
          | .error stf => .error stf
          | .ok (ds, stf) => .ok (d :: ds, stf)

theorem stepModel_ok_iff {f : ModelFn} {st st1 : Store} :
    stepModel f st = .ok st1 ↔
      ∃ te ts d st', st.get "total_energy" = some te ∧
        st.get "timestep" = some ts ∧ f st ts = (some d, st') ∧
        st1 = st'.set "total_energy" (te + d) := by
  constructor
  · intro h
    unfold stepModel at h
    split at h
    · simp at h
    · rename_i te hte
      split at h
      · simp at h
      · rename_i ts hts
        split at h
        · simp at h
        · rename_i d st' hf
          injection h with h
          exact ⟨te, ts, d, st', hte, hts, hf, h.symm⟩
  · rintro ⟨te, ts, d, st', hte, hts, hf, rfl⟩
    simp [stepModel, hte, hts, hf]

theorem runDeltas_cons_ok {f : ModelFn} {rest : List ModelFn} {st st1 : Store}
    {ds : List ℚ} :
    runDeltas (f :: rest) st = .ok (ds, st1) ↔
      ∃ te ts d st' ds', st.get "total_energy" = some te ∧
        st.get "timestep" = some ts ∧ f st ts = (some d, st') ∧
        runDeltas rest (st'.set "total_energy" (te + d)) = .ok (ds', st1) ∧
        ds = d :: ds' := by
  constructor
  · intro h
    unfold runDeltas at h
    split at h
    · simp at h
    · rename_i te hte
      split at h
      · simp at h
      · rename_i ts hts
        split at h
        · simp at h
        · rename_i d st' hf
          split at h
          · simp at h
          · rename_i p ds' stf hrec
            simp only [Except.ok.injEq, Prod.mk.injEq] at h
            exact ⟨te, ts, d, st', ds', hte, hts, hf,
              by rw [h.2] at hrec; exact hrec, h.1.symm⟩
  · rintro ⟨te, ts, d, st', ds', hte, hts, hf, hrec, rfl⟩
    simp [runDeltas, hte, hts, hf, hrec]

theorem runModels_ok_runDeltas {ms : List ModelFn} {st st1 : Store}
    (h : runModels ms st = .ok st1) :
    ∃ ds : List ℚ, runDeltas ms st = .ok (ds, st1) ∧ ds.length = ms.length := by
  induction ms generalizing st with
  | nil =>
    simp only [runModels, Except.ok.injEq] at h
    subst h
    exact ⟨[], rfl, rfl⟩
  | cons f rest ih =>
    simp only [runModels] at h
    split at h
    · simp at h
    · rename_i st' hstep
      obtain ⟨te, ts, d, stM, hte, hts, hf, rfl⟩ := stepModel_ok_iff.mp hstep
      obtain ⟨ds, hds, hlen⟩ := ih h
      exact ⟨d :: ds, runDeltas_cons_ok.mpr ⟨te, ts, d, stM, ds, hte, hts, hf, hds, rfl⟩,
        by simp [hlen]⟩

theorem runDeltas_ok_runModels {ms : List ModelFn} {st st1 : Store} {ds : List ℚ}
    (h : runDeltas ms st = .ok (ds, st1)) : runModels ms st = .ok st1 := by
  induction ms generalizing st ds with
  | nil =>
    simp only [runDeltas, Except.ok.injEq, Prod.mk.injEq] at h
    simp [runModels, h.2]
  | cons f rest ih =>
    obtain ⟨te, ts, d, st', ds', hte, hts, hf, hrec, rfl⟩ := runDeltas_cons_ok.mp h
    have hstep : stepModel f st = .ok (st'.set "total_energy" (te + d)) :=
      stepModel_ok_iff.mpr ⟨te, ts, d, st', hte, hts, hf, rfl⟩
    simp only [runModels, hstep]
    exact ih hrec

/-- The model loop accumulates exactly `total_energy + (sum of returned
deltas)`: each `+=` reads `total_energy` before the model runs and stores
the sum afterwards, so nothing except the engine's additions reaches
`total_energy`. -/
theorem runDeltas_total_energy {ms : List ModelFn} {st st1 : Store}
    {ds : List ℚ} {te0 : ℚ} (h : runDeltas ms st = .ok (ds, st1))
    (hte : st.get "total_energy" = some te0) :
    st1.get "total_energy" = some (te0 + ds.sum) := by
  induction ms generalizing st ds te0 with
  | nil =>
    simp only [runDeltas, Except.ok.injEq, Prod.mk.injEq] at h
    rw [← h.2, ← h.1]
    simpa using hte
  | cons f rest ih =>
    obtain ⟨te, ts, d, st', ds', hte', hts, hf, hrec, rfl⟩ := runDeltas_cons_ok.mp h
    have hEq : te = te0 := Option.some.inj (hte'.symm.trans hte)
    rw [← hEq]
    have := ih hrec (Store.get_set_self st' "total_energy" (te + d))
    simpa [add_assoc] using this

theorem runDeltas_append {ms ns : List ModelFn} {st st1 stf : Store}
    {ds es : List ℚ} (h1 : runDeltas ms st = .ok (ds, st1))
    (h2 : runDeltas ns st1 = .ok (es, stf)) :
    runDeltas (ms ++ ns) st = .ok (ds ++ es, stf) := by
  induction ms generalizing st ds with
  | nil =>
    simp only [runDeltas, Except.ok.injEq, Prod.mk.injEq] at h1
    rw [← h1.1]
    simpa [← h1.2] using h2
  | cons f rest ih =>
    obtain ⟨te, ts, d, st', ds', hte, hts, hf, hrec, rfl⟩ := runDeltas_cons_ok.mp h1
    exact List.cons_append f rest ns ▸
      runDeltas_cons_ok.mpr ⟨te, ts, d, st', ds' ++ es, hte, hts, hf, ih hrec, rfl⟩

theorem stepModel_ok_runDeltas {f : ModelFn} {st st1 : Store}
    (h : stepModel f st = .ok st1) :
    ∃ d : ℚ, runDeltas [f] st = .ok ([d], st1) := by
  obtain ⟨te, ts, d, st', hte, hts, hf, rfl⟩ := stepModel_ok_iff.mp h
  exact ⟨d, runDeltas_cons_ok.mpr ⟨te, ts, d, st', [], hte, hts, hf, rfl, rfl⟩⟩

theorem clampStep_ok_iff {st st1 : Store} :
    clampStep st = .ok st1 ↔
      ∃ te bmax, st.get "total_energy" = some te ∧
        st.get "battery_max_energy" = some bmax ∧
        st1 = st.set "total_energy" (max (min te bmax) 0) := by
  constructor
  · intro h
    unfold clampStep at h
    split at h
    · rename_i te bmax hte hb
      injection h with h
      exact ⟨te, bmax, hte, hb, h.symm⟩
    · simp at h
  · rintro ⟨te, bmax, hte, hb, rfl⟩
    simp [clampStep, hte, hb]

theorem updateStore_ok_iff {ms : List ModelFn} {bat : ModelFn} {st st' : Store} :
    updateStore ms bat st = .ok st' ↔
      ∃ st1 st2, runModels ms st = .ok st1 ∧ stepModel bat st1 = .ok st2 ∧
        clampStep st2 = .ok st' := by
  constructor
  · intro h
    unfold updateStore at h
    split at h
    · simp at h
    · rename_i st1 h1
      split at h
      · simp at h
      · rename_i st2 h2
        exact ⟨st1, st2, h1, h2, h⟩
  · rintro ⟨st1, st2, h1, h2, h3⟩
    simp [updateStore, h1, h2, h3]

theorem updateStore_error_of_runModels {ms : List ModelFn} {bat : ModelFn}
    {st stf : Store} (h : runModels ms st = .error stf) :
    updateStore ms bat st = .error stf := by
  simp [updateStore, h]

theorem runModels_error_mid_loop {pre : List ModelFn} {bad : ModelFn}
    {rest : List ModelFn} {st st1 stf : Store}
    (h1 : runModels pre st = .ok st1) (h2 : stepModel bad st1 = .error stf) :
    runModels (pre ++ bad :: rest) st = .error stf := by
  induction pre generalizing st with
  | nil =>
    simp only [runModels, Except.ok.injEq] at h1
    subst h1
    simp [runModels, h2]
  | cons f pre' ih =>
    simp only [runModels] at h1
    split at h1
    · simp at h1
    · rename_i st' hstep
      simp only [List.cons_append, runModels, hstep]
      exact ih h1

theorem VehicleModel.update_ok_iff {m m' : VehicleModel} :
    m.update = .ok m' ↔
      ∃ st', updateStore m.models m.battery_model m.params = .ok st' ∧
        m' = { m with params := st' } := by
  unfold VehicleModel.update
  constructor
  · intro h
    split at h
    · rename_i st' hst
      injection h with h
      exact ⟨st', hst, h.symm⟩
    · simp at h
  · rintro ⟨st', hst, rfl⟩
    simp [hst]

theorem VehicleModel.update_error_iff {m m' : VehicleModel} :
    m.update = .error m' ↔
      ∃ st', updateStore m.models m.battery_model m.params = .error st' ∧
        m' = { m with params := st' } := by
  unfold VehicleModel.update
  constructor
  · intro h
    split at h
    · simp at h
    · rename_i st' hst
      injection h with h
      exact ⟨st', hst, h.symm⟩
  · rintro ⟨st', hst, rfl⟩
    simp [hst]

theorem iterateUpdates_init_params (n : Nat) (m : VehicleModel) :
    (iterateUpdates n m).init_params = m.init_params := by
  induction n generalizing m with
  | zero => rfl
  | succ n ih =>
    simp only [iterateUpdates]
    split
    · rename_i m' h
      obtain ⟨st', _, rfl⟩ := VehicleModel.update_ok_iff.mp h
      exact ih _
    · rename_i m' h
      obtain ⟨st', _, rfl⟩ := VehicleModel.update_error_iff.mp h
      rfl

theorem foldl_add_model_fields (fs : List ModelFn) (m : VehicleModel) :
    (fs.foldl VehicleModel.add_model m).init_params = m.init_params ∧
      (fs.foldl VehicleModel.add_model m).params = m.params := by
  induction fs generalizing m with
  | nil => exact ⟨rfl, rfl⟩
  | cons f fs ih => simpa [VehicleModel.add_model] using ih (m.add_model f)

end VehicleSim

namespace VehicleSim

theorem Store.get_set_ite (st : Store) (k k'' : String) (v : ℚ) :
    (st.set k v).get k'' = if k = k'' then some v else st.get k'' := by
  by_cases h : k = k''
  · subst h
    simp [Store.get_set_self]
  · simp [h, Store.get_set_ne st k k'' v h]

/-- Claim C1: after every `update()` that returns (no exception), the
stored `total_energy` satisfies `0 ≤ total_energy ≤ battery_max_energy`
(battery capacity taken non-negative, as a capacity is): the final clamp
step bounds the accumulated energy every timestep. -/
theorem claim_C1_total_energy_clamp_invariant (m m' : VehicleModel)
    (h : m.update = .ok m') (b : ℚ)
    (hb : m'.params.get "battery_max_energy" = some b) (hb0 : 0 ≤ b) :
    ∃ te, m'.params.get "total_energy" = some te ∧ 0 ≤ te ∧ te ≤ b := by
  obtain ⟨st', hst, rfl⟩ := VehicleModel.update_ok_iff.mp h
  obtain ⟨st1, st2, h1, h2, h3⟩ := updateStore_ok_iff.mp hst
  obtain ⟨te, bmax, hte, hbm, rfl⟩ := clampStep_ok_iff.mp h3
  have hb' : (st2.set "total_energy" (max (min te bmax) 0)).get "battery_max_energy"
      = some b := hb
  rw [Store.get_set_ne _ _ _ _ (by decide)] at hb'
  have hbb : bmax = b := Option.some.inj (hbm.symm.trans hb')
  subst hbb
  exact ⟨max (min te bmax) 0, Store.get_set_self st2 "total_energy" _,
    le_max_right _ 0, max_le (min_le_right te bmax) hb0⟩

def c1store : Store :=
  ⟨[("total_energy", 5), ("timestep", 1), ("battery_max_energy", 10),
    ("cell_internal_impedance", 1), ("cells_in_parallel", 1),
    ("cells_in_series", 1), ("drag_power", -2), ("rr_power", -1),
    ("battery_voltage_nominal", 1)]⟩

def c1engine : VehicleModel := VehicleModel.init c1store

def c1result : VehicleModel :=
  match c1engine.update with
  | .ok m' => m'
  | .error m' => m'

theorem claim_C1_witness :
    (0 : ℚ) ≤ 10 ∧
      ∃ te, c1result.params.get "total_energy" = some te ∧ 0 ≤ te ∧ te ≤ 10 :=
  ⟨by norm_num,
    claim_C1_total_energy_clamp_invariant c1engine c1result (by rfl) 10 (by rfl)
      (by norm_num)⟩

/-- Claim C2: a successful `update()` invokes the registered models in
registration order and then the battery model last (the delta list below
has one entry per registered model plus the battery's), adds each returned
delta to `total_energy` unclamped — the pre-clamp store holds the raw sum
`te0 + Σ deltas` — and bounds energy exactly once, by the single final
clamp write that produces the returned store. -/
theorem claim_C2_update_pipeline (m m' : VehicleModel) (te0 : ℚ)
    (hte : m.params.get "total_energy" = some te0)
    (h : m.update = .ok m') :
    ∃ (ds : List ℚ) (stPre : Store) (b : ℚ),
      runDeltas (m.models ++ [m.battery_model]) m.params = .ok (ds, stPre) ∧
      ds.length = m.models.length + 1 ∧
      stPre.get "total_energy" = some (te0 + ds.sum) ∧
      stPre.get "battery_max_energy" = some b ∧
      m'.params = stPre.set "total_energy" (max (min (te0 + ds.sum) b) 0) := by
  obtain ⟨st', hst, rfl⟩ := VehicleModel.update_ok_iff.mp h
  obtain ⟨st1, st2, h1, h2, h3⟩ := updateStore_ok_iff.mp hst
  obtain ⟨ds, hds, hlen⟩ := runModels_ok_runDeltas h1
  obtain ⟨d, hd⟩ := stepModel_ok_runDeltas h2
  have hall := runDeltas_append hds hd
  have hsum := runDeltas_total_energy hall hte
  obtain ⟨te, bmax, hte2, hbm, rfl⟩ := clampStep_ok_iff.mp h3
  have hteEq : te = te0 + (ds ++ [d]).sum := Option.some.inj (hte2.symm.trans hsum)
  refine ⟨ds ++ [d], st2, bmax, hall, by simp [hlen], hsum, hbm, ?_⟩
  show st2.set "total_energy" (max (min te bmax) 0)
      = st2.set "total_energy" (max (min (te0 + (ds ++ [d]).sum) bmax) 0)
  rw [hteEq]

def c2store : Store :=
  ⟨[("total_energy", 0), ("timestep", 1), ("air_density", 2), ("velocity", 1),
    ("drag_coeff", 1), ("frontal_area", 1), ("cell_internal_impedance", 1),
    ("cells_in_parallel", 1), ("cells_in_series", 1), ("rr_power", 0),
    ("battery_voltage_nominal", 1), ("battery_max_energy", 100)]⟩

def c2engine : VehicleModel := (VehicleModel.init c2store).add_model SCPDragModel.update

def c2result : VehicleModel :=
  match c2engine.update with
  | .ok m' => m'
  | .error m' => m'

theorem claim_C2_witness :
    ∃ (ds : List ℚ) (stPre : Store) (b : ℚ),
      runDeltas (c2engine.models ++ [c2engine.battery_model]) c2engine.params
        = .ok (ds, stPre) ∧
      ds.length = c2engine.models.length + 1 ∧
      stPre.get "total_energy" = some (0 + ds.sum) ∧
      stPre.get "battery_max_energy" = some b ∧
      c2result.params = stPre.set "total_energy" (max (min (0 + ds.sum) b) 0) :=
  claim_C2_update_pipeline c2engine c2result 0 (by rfl) (by rfl)

/-- Claim C6: however many `update()` steps ran (and whatever they wrote
into the live store), `reset()` restores `params` to the initial parameter
set: reading any key afterwards returns exactly the value it had before
the first `update()`. -/
theorem claim_C6_reset_restores_initial_values (ip : Store) (fs : List ModelFn)
    (bat : ModelFn) (n : Nat) (k : String) :
    ((iterateUpdates n ((fs.foldl VehicleModel.add_model
        (VehicleModel.init ip)).set_battery_model bat)).reset).params.get k
      = ((fs.foldl VehicleModel.add_model
        (VehicleModel.init ip)).set_battery_model bat).params.get k := by
  have h0 := foldl_add_model_fields fs (VehicleModel.init ip)
  have hinit : ((fs.foldl VehicleModel.add_model
      (VehicleModel.init ip)).set_battery_model bat).init_params = ip := by
    simpa [VehicleModel.set_battery_model, VehicleModel.init] using h0.1
  have hparams : ((fs.foldl VehicleModel.add_model
      (VehicleModel.init ip)).set_battery_model bat).params = ip := by
    simpa [VehicleModel.set_battery_model, VehicleModel.init] using h0.2
  have h1 : ((iterateUpdates n ((fs.foldl VehicleModel.add_model
      (VehicleModel.init ip)).set_battery_model bat)).reset).params
      = (iterateUpdates n ((fs.foldl VehicleModel.add_model
        (VehicleModel.init ip)).set_battery_model bat)).init_params := rfl
  rw [h1, iterateUpdates_init_params, hinit, hparams]

/-- Claim C10: `update()` is not atomic on error.  If a registered model
raises partway through a step (here: after the models `pre` ran and the
failing model left the store as `stf`), the exception propagates out of
`update()`, and `params` is exactly the store at the moment of the raise —
every auxiliary field and `total_energy` addition made by earlier models is
retained, nothing is rolled back, later models do not run and the final
clamp is not applied. -/
theorem claim_C10_update_not_atomic_on_error (m : VehicleModel)
    (pre : List ModelFn) (bad : ModelFn) (rest : List ModelFn)
    (st1 stf : Store) (hms : m.models = pre ++ bad :: rest)
    (h1 : runModels pre m.params = .ok st1)
    (h2 : stepModel bad st1 = .error stf) :
    m.update = .error { m with params := stf } := by
  apply VehicleModel.update_error_iff.mpr
  refine ⟨stf, ?_, rfl⟩
  rw [hms]
  exact updateStore_error_of_runModels (runModels_error_mid_loop h1 h2)

def c10store : Store :=
  ⟨[("total_energy", 0), ("timestep", 1), ("air_density", 1), ("velocity", 1),
    ("drag_coeff", 1), ("frontal_area", 1), ("cell_internal_impedance", 1),
    ("cells_in_parallel", 1), ("cells_in_series", 1),
    ("battery_voltage_nominal", 1), ("battery_max_energy", 100)]⟩

/-- Drag succeeds, then `ESRBatteryLossModel` raises on the missing
`rr_power` key after having written `pack_resistance`. -/
def c10engine : VehicleModel :=
  ((VehicleModel.init c10store).add_model SCPDragModel.update).add_model
    ESRBatteryLossModel.update

def c10st1 : Store :=
  match runModels [SCPDragModel.update] c10engine.params with
  | .ok s => s
  | .error s => s

def c10stf : Store :=
  match stepModel ESRBatteryLossModel.update c10st1 with
  | .ok s => s
  | .error s => s

theorem claim_C10_witness :
    c10engine.update = .error { c10engine with params := c10stf } ∧
      c10stf.get "pack_resistance" = some 1 ∧
      c10stf.get "drag_power" = some (-(1/2)) ∧
      c10stf.get "total_energy" = some (-(1/2)) :=
  ⟨claim_C10_update_not_atomic_on_error c10engine [SCPDragModel.update]
      ESRBatteryLossModel.update [] c10st1 c10stf (by rfl) (by rfl) (by rfl),
    by simp [c10stf, c10st1, c10engine, c10store, stepModel, runModels,
      ESRBatteryLossModel.update, SCPDragModel.update, VehicleModel.init,
      VehicleModel.add_model, Store.get, Store.set, getEntry, setEntry],
    by
      simp [c10stf, c10st1, c10engine, c10store, stepModel, runModels,
        ESRBatteryLossModel.update, SCPDragModel.update, VehicleModel.init,
        VehicleModel.add_model, Store.get, Store.set, getEntry, setEntry]
      norm_num,
    by
      simp [c10stf, c10st1, c10engine, c10store, stepModel, runModels,
        ESRBatteryLossModel.update, SCPDragModel.update, VehicleModel.init,
        VehicleModel.add_model, Store.get, Store.set, getEntry, setEntry]
      norm_num⟩

end VehicleSim

namespace VehicleSim

/-- Claim C9: for non-negative velocity, rolling-resistance coefficients,
wheel weights, gravitational acceleration and timestep, the Rolling
Resistance model's update returns an energy value ≤ 0 — it is strictly a
loss. -/
theorem claim_C9_rolling_resistance_loss (st : Store) (t mu mu2 v fw g rw : ℚ)
    (hmu : st.get "mu_rr" = some mu) (hmu2 : st.get "mu2_rr" = some mu2)
    (hv : st.get "velocity" = some v)
    (hfw : st.get "f_wheel_weight" = some fw)
    (hg : st.get "grav_accel" = some g)
    (hrw : st.get "r_wheel_weight" = some rw)
    (h0mu : 0 ≤ mu) (h0mu2 : 0 ≤ mu2) (h0v : 0 ≤ v) (h0fw : 0 ≤ fw)
    (h0g : 0 ≤ g) (h0rw : 0 ≤ rw) (h0t : 0 ≤ t) :
    ∃ e, (SCPRollingResistanceModel.update st t).1 = some e ∧ e ≤ 0 := by
  have htm : 0 ≤ mu + mu2 * v := add_nonneg h0mu (mul_nonneg h0mu2 h0v)
  cases he : (SCPRollingResistanceModel.update st t).1 with
  | none =>
    exfalso
    simp [SCPRollingResistanceModel.update, hmu, hmu2, hv, Store.get_set_ite,
      hfw, hg, hrw] at he
  | some e =>
    refine ⟨e, rfl, ?_⟩
    simp [SCPRollingResistanceModel.update, hmu, hmu2, hv, Store.get_set_ite,
      hfw, hg, hrw] at he
    nlinarith [he,
      mul_nonneg (mul_nonneg (mul_nonneg (mul_nonneg h0fw h0g) htm) h0v) h0t,
      mul_nonneg (mul_nonneg (mul_nonneg (mul_nonneg h0rw h0g) htm) h0v) h0t]

def c9store : Store :=
  ⟨[("mu_rr", 1), ("mu2_rr", 1), ("velocity", 2), ("f_wheel_weight", 3),
    ("grav_accel", 10), ("r_wheel_weight", 4)]⟩

theorem claim_C9_witness :
    ∃ e, (SCPRollingResistanceModel.update c9store 1).1 = some e ∧ e ≤ 0 :=
  claim_C9_rolling_resistance_loss c9store 1 1 1 2 3 10 4 rfl rfl rfl rfl rfl rfl
    (by norm_num) (by norm_num) (by norm_num) (by norm_num) (by norm_num)
    (by norm_num) (by norm_num)

/-- The concrete drag scenario of the spec. -/
def c8store : Store :=
  ⟨[("velocity", 16), ("drag_coeff", 0.1305), ("frontal_area", 0.9117),
    ("air_density", 1.225)]⟩

/-- Claim C8 (amended): with `velocity = 16`, `drag_coeff = 0.1305`,
`frontal_area = 0.9117`, `air_density = 1.225` and no wind modifier, the
Drag model writes `drag_power = -(0.5·1.225·16³·0.1305·0.9117) W`
`= -298.48912128 W` (so ≈ `-298.49 W`, not ≈ `-233.7 W`) and returns
`drag_power * timestep`. -/
theorem claim_C8_drag_scenario (t : ℚ) :
    SCPDragModel.update c8store t
      = (some (-(0.5 * 1.225 * 16 ^ 3 * 0.1305 * 0.9117) * t),
          c8store.set "drag_power" (-(0.5 * 1.225 * 16 ^ 3 * 0.1305 * 0.9117))) ∧
    -(0.5 * 1.225 * 16 ^ 3 * 0.1305 * 0.9117 : ℚ) = -(29848912128 / 100000000) ∧
    -(29849 / 100 : ℚ) < -(29848912128 / 100000000) ∧
    -(29848912128 / 100000000 : ℚ) < -(29848 / 100) := by
  refine ⟨rfl, by norm_num, by norm_num, by norm_num⟩

/-- Claim C8 counterexample: at the stated inputs the written `drag_power`
is `-298.48912128 W`, more than 60 W away from the claimed `≈ -233.7 W`
(it is below `-293.7`), so the claimed numeric value is wrong. -/
theorem claim_C8_counterexample :
    (SCPDragModel.update c8store 1).1 = some (-(29848912128 / 100000000 : ℚ)) ∧
    (-(29848912128 / 100000000 : ℚ)) < -(2937 / 10) ∧
    (-(2937 / 10 : ℚ)) < -(2337 / 10) := by
  refine ⟨?_, by norm_num, by norm_num⟩
  have h := (claim_C8_drag_scenario 1).1
  rw [h]
  have h2 := (claim_C8_drag_scenario 1).2.1
  simp [h2]

/-- The night scenario: equator (`latitude_deg = 0`) at local midnight
(`timestamp = 0` seconds since midnight), with the nameplate array
parameters of the spec scenario. -/
def c3store : Store :=
  ⟨[("latitude_deg", 0), ("timestamp", 0), ("num_cells", 258),
    ("p_mpp", 3.98), ("cell_efficiency", 0.254)]⟩

/-- Claim C3, evaluated at the failing input: at `latitude_deg = 0`,
`timestamp = 0` the sun is below the horizon — `_incidence_factor`
returns `0` — yet `SCPArrayModel.update` (which never consults the
incidence factor) writes `array_power = 258 · 3.98 · 0.254 ≈ 260.8 W ≠ 0`
and returns a non-zero energy, contradicting the documented
"sun below horizon → no power" behaviour. -/
theorem claim_C3_night_nonzero_power :
    SCPArrayModel.incidence_factor 0 0 = 0 ∧
    (SCPArrayModel.update c3store 1).1 = some (258 * (3.98 : ℚ) * 0.254 * 1) ∧
    ((SCPArrayModel.update c3store 1).2).get "array_power"
      = some (258 * (3.98 : ℚ) * 0.254) ∧
    (258 * (3.98 : ℚ) * 0.254 * 1 ≠ 0) := by
  refine ⟨?_, rfl, rfl, by norm_num⟩
  have hlat : ((0:ℚ):ℝ) * Real.pi / 180 = 0 := by
    push_cast
    ring
  have hpi : (((0:ℚ):ℝ) / 3600 - 12) * (Real.pi / 12) = -Real.pi := by
    push_cast
    ring
  simp only [SCPArrayModel.incidence_factor, hlat, hpi, Real.sin_zero,
    Real.cos_zero, Real.cos_neg, Real.cos_pi, mul_zero, zero_add, mul_one,
    one_mul, zero_mul, mul_neg]
  norm_num [min_def, max_def]

end VehicleSim

namespace VehicleSim

def c4store : Store :=
  ⟨[("cell_internal_impedance", 1), ("cells_in_parallel", 1),
    ("cells_in_series", 1), ("drag_power", -3), ("rr_power", 1),
    ("battery_voltage_nominal", 1)]⟩

/-- Claim C4 counterexample: an engine on which `set_battery_model` was
never called holds `BatteryModel()`, which delegates to
`ESRBatteryLossModel`: on a store carrying the ESR inputs the battery step
contributes a non-zero energy (`-4` here) and writes
`battery_power_loss` (among others) into the store — not a no-op. -/
theorem claim_C4_counterexample :
    ((VehicleModel.init c4store).battery_model c4store 1).1 = some (-4) ∧
    ((VehicleModel.init c4store).battery_model c4store 1).2.get
        "battery_power_loss" = some 4 ∧
    c4store.get "battery_power_loss" = none ∧ ((-4 : ℚ) ≠ 0) := by
  refine ⟨?_, ?_, rfl, by norm_num⟩
  · show (BatteryModel.update c4store 1).1 = some (-4)
    simp [BatteryModel.update, ESRBatteryLossModel.update, c4store,
      Store.get, Store.set, getEntry, setEntry]
    norm_num
  · show ((BatteryModel.update c4store 1).2).get "battery_power_loss" = some 4
    simp [BatteryModel.update, ESRBatteryLossModel.update, c4store,
      Store.get, Store.set, getEntry, setEntry]
    norm_num

/-- Claim C4 (amended): the default battery model of a `VehicleModel` on
which `set_battery_model` was never called is the ESR
internal-resistance loss model, not a no-op: with the required parameters
present (and no temperature modifier) the battery step returns
`-((drag_power + rr_power)/battery_voltage_nominal)² · pack_resistance ·
timestep` and writes `pack_resistance`, `current_draw` and
`battery_power_loss` into the parameter store. -/
theorem claim_C4_default_battery_is_esr (ip st : Store) (t imp par ser dp rp vn : ℚ)
    (himp : st.get "cell_internal_impedance" = some imp)
    (hpar : st.get "cells_in_parallel" = some par)
    (hser : st.get "cells_in_series" = some ser)
    (hwm : st.get "weather_temp_modifier" = none)
    (hdp : st.get "drag_power" = some dp)
    (hrp : st.get "rr_power" = some rp)
    (hvn : st.get "battery_voltage_nominal" = some vn) :
    (VehicleModel.init ip).battery_model st t
      = (some (-(((dp + rp) / vn) ^ 2 * (imp / par * ser)) * t),
          ((st.set "pack_resistance" (imp / par * ser)).set "current_draw"
            ((dp + rp) / vn)).set "battery_power_loss"
            (((dp + rp) / vn) ^ 2 * (imp / par * ser))) := by
  have hdp1 : (st.set "pack_resistance" (imp / par * ser)).get "drag_power"
      = some dp := by
    rw [Store.get_set_ne _ _ _ _ (by decide)]
    exact hdp
  have hrp1 : (st.set "pack_resistance" (imp / par * ser)).get "rr_power"
      = some rp := by
    rw [Store.get_set_ne _ _ _ _ (by decide)]
    exact hrp
  have hvn1 : (st.set "pack_resistance" (imp / par * ser)).get
      "battery_voltage_nominal" = some vn := by
    rw [Store.get_set_ne _ _ _ _ (by decide)]
    exact hvn
  show BatteryModel.update st t = _
  simp [BatteryModel.update, ESRBatteryLossModel.update, himp, hpar, hser,
    hwm, hdp1, hrp1, hvn1]

theorem claim_C4_witness :
    (VehicleModel.init c4store).battery_model c4store 1
      = (some (-((((-3 : ℚ) + 1) / 1) ^ 2 * ((1 : ℚ) / 1 * 1)) * 1),
          ((c4store.set "pack_resistance" ((1 : ℚ) / 1 * 1)).set "current_draw"
            (((-3 : ℚ) + 1) / 1)).set "battery_power_loss"
            ((((-3 : ℚ) + 1) / 1) ^ 2 * ((1 : ℚ) / 1 * 1))) :=
  claim_C4_default_battery_is_esr c4store c4store 1 1 1 1 (-3) 1 1 rfl rfl rfl
    rfl rfl rfl rfl

end VehicleSim

namespace VehicleSim

/-- Folding the LV component list over a store that holds none of the
component currents leaves the accumulator unchanged: every absent current
silently contributes `Q_(0, "A")`. -/
theorem lv_total_zero (st : Store) (l : List String) (q : ℚ)
    (h : ∀ c ∈ l, st.get c = none) :
    l.foldl (fun acc c => acc + lvComponentCurrent st false c) q = q := by
  induction l generalizing q with
  | nil => rfl
  | cons c l ih =>
    have hc : st.get c = none := h c (by simp)
    have hcur : lvComponentCurrent st false c = 0 := by
      simp [lvComponentCurrent, hc]
    simp only [List.foldl_cons, hcur, add_zero]
    exact ih q (fun c' hc' => h c' (by simp [hc']))

/-- Claim C5 (amended): genuinely required parameters do fail the step
immediately when absent (`velocity` for the Drag model, `lv_voltage` for
the LV draw model, each raising with the store unchanged), but the LV draw
model's per-component currents are an exception the claim does not allow:
a component current absent from the store is silently replaced by `0 A`
(an implicit zero, not a non-zero named-constant fallback), and the step
succeeds. -/
theorem claim_C5_missing_param_policy :
    (∀ (st : Store) (t : ℚ), st.get "velocity" = none →
        SCPDragModel.update st t = (none, st)) ∧
    (∀ (st : Store) (t : ℚ), st.get "lv_voltage" = none →
        LVDrawModel.update st t = (none, st)) ∧
    (∀ (st : Store) (t lvv : ℚ), st.get "lv_voltage" = some lvv →
        st.get "enable_peak_draw" = none →
        (∀ c ∈ lvComponents, st.get c = none) →
        LVDrawModel.update st t
          = (some (-(lvv * 0) * t), st.set "lv_draw_power" (lvv * 0))) := by
  refine ⟨?_, ?_, ?_⟩
  · intro st t h
    cases h1 : st.get "air_density" <;> cases h3 : st.get "drag_coeff" <;>
      cases h4 : st.get "frontal_area" <;>
        simp [SCPDragModel.update, h1, h, h3, h4]
  · intro st t h
    simp [LVDrawModel.update, h]
  · intro st t lvv hv hm hcomps
    have hfold := lv_total_zero st lvComponents 0 hcomps
    simp [LVDrawModel.update, hm, hv, hfold]

def c5store : Store := ⟨[("lv_voltage", 12)]⟩

/-- Claim C5 counterexample: on a store holding only `lv_voltage`, every
LV component current is absent from the store, yet `LVDrawModel.update`
does not fail — it silently treats each missing current as `0 A` and
returns energy `-(12·0)·t = 0`.  So "a missing required parameter fails
the step immediately with no silent default ... fallbacks are named
constants rather than implicit zero" does not hold of the LV draw model. -/
theorem claim_C5_counterexample :
    (LVDrawModel.update c5store 1).1 = some (-(12 * 0) * 1) ∧
    (∀ c ∈ lvComponents, c5store.get c = none) ∧
    c5store.get "lv_voltage" = some 12 := by
  refine ⟨?_, by decide, rfl⟩
  have h := (claim_C5_missing_param_policy.2.2 c5store 1 12 rfl rfl (by decide))
  rw [h]

theorem claim_C5_witness :
    SCPDragModel.update ⟨[("air_density", 1)]⟩ 1
        = (none, ⟨[("air_density", 1)]⟩) ∧
    LVDrawModel.update c5store 1
        = (some (-(12 * 0) * 1), c5store.set "lv_draw_power" (12 * 0)) :=
  ⟨claim_C5_missing_param_policy.1 ⟨[("air_density", 1)]⟩ 1 rfl,
    claim_C5_missing_param_policy.2.2 c5store 1 12 rfl rfl (by decide)⟩

end VehicleSim

namespace VehicleSim

/-- Claim C7 (amended): the ESR battery loss model writes
`current_draw = (drag_power + rr_power)/battery_voltage_nominal` and
`battery_power_loss = current_draw² · pack_resistance`, where
`pack_resistance = (cell_internal_impedance/cells_in_parallel) ·
cells_in_series`, divided by the temperature modifier when one is present;
the returned delta is `-battery_power_loss · timestep`, and it is
non-positive given a non-negative cell impedance, positive cell counts, a
non-negative timestep *and a positive temperature modifier when present*
(a negative modifier flips the sign — see the counterexample). -/
theorem claim_C7_esr_loss_model (st : Store) (t imp par ser dp rp vn : ℚ)
    (himp : st.get "cell_internal_impedance" = some imp)
    (hpar : st.get "cells_in_parallel" = some par)
    (hser : st.get "cells_in_series" = some ser)
    (hdp : st.get "drag_power" = some dp)
    (hrp : st.get "rr_power" = some rp)
    (hvn : st.get "battery_voltage_nominal" = some vn)
    (h0imp : 0 ≤ imp) (h0par : 0 < par) (h0ser : 0 < ser) (h0t : 0 ≤ t)
    (hmod : ∀ w, st.get "weather_temp_modifier" = some w → 0 < w) :
    ∃ r d st', ESRBatteryLossModel.update st t = (some d, st') ∧
      0 ≤ r ∧
      ((st.get "weather_temp_modifier" = none ∧ r = imp / par * ser) ∨
        (∃ w, st.get "weather_temp_modifier" = some w ∧
          r = (imp / par * ser) / w)) ∧
      st'.get "pack_resistance" = some r ∧
      st'.get "current_draw" = some ((dp + rp) / vn) ∧
      st'.get "battery_power_loss" = some (((dp + rp) / vn) ^ 2 * r) ∧
      d = -(((dp + rp) / vn) ^ 2 * r) * t ∧ d ≤ 0 := by
  have hbase : 0 ≤ imp / par * ser :=
    mul_nonneg (div_nonneg h0imp h0par.le) h0ser.le
  have hd_le : ∀ r : ℚ, 0 ≤ r → -(((dp + rp) / vn) ^ 2 * r) * t ≤ 0 := by
    intro r hr
    rw [neg_mul]
    exact neg_nonpos.mpr (mul_nonneg (mul_nonneg (sq_nonneg _) hr) h0t)
  have hgets : ∀ r : ℚ,
      (((st.set "pack_resistance" r).set "current_draw" ((dp + rp) / vn)).set
          "battery_power_loss" (((dp + rp) / vn) ^ 2 * r)).get "pack_resistance"
        = some r ∧
      (((st.set "pack_resistance" r).set "current_draw" ((dp + rp) / vn)).set
          "battery_power_loss" (((dp + rp) / vn) ^ 2 * r)).get "current_draw"
        = some ((dp + rp) / vn) ∧
      (((st.set "pack_resistance" r).set "current_draw" ((dp + rp) / vn)).set
          "battery_power_loss" (((dp + rp) / vn) ^ 2 * r)).get
          "battery_power_loss" = some (((dp + rp) / vn) ^ 2 * r) := by
    intro r
    refine ⟨?_, ?_, ?_⟩
    · rw [Store.get_set_ne _ _ _ _ (by decide),
        Store.get_set_ne _ _ _ _ (by decide), Store.get_set_self]
    · rw [Store.get_set_ne _ _ _ _ (by decide), Store.get_set_self]
    · rw [Store.get_set_self]
  have hdp1 : ∀ r : ℚ, (st.set "pack_resistance" r).get "drag_power" = some dp := by
    intro r
    rw [Store.get_set_ne _ _ _ _ (by decide)]
    exact hdp
  have hrp1 : ∀ r : ℚ, (st.set "pack_resistance" r).get "rr_power" = some rp := by
    intro r
    rw [Store.get_set_ne _ _ _ _ (by decide)]
    exact hrp
  have hvn1 : ∀ r : ℚ,
      (st.set "pack_resistance" r).get "battery_voltage_nominal" = some vn := by
    intro r
    rw [Store.get_set_ne _ _ _ _ (by decide)]
    exact hvn
  cases hw : st.get "weather_temp_modifier" with
  | none =>
    refine ⟨imp / par * ser, -(((dp + rp) / vn) ^ 2 * (imp / par * ser)) * t,
      _, ?_, hbase, Or.inl ⟨rfl, rfl⟩, (hgets _).1, (hgets _).2.1, (hgets _).2.2,
      rfl, hd_le _ hbase⟩
    simp [ESRBatteryLossModel.update, himp, hpar, hser, hw, hdp1, hrp1, hvn1]
  | some w =>
    have hw0 : 0 < w := hmod w hw
    have hr0 : 0 ≤ (imp / par * ser) / w := div_nonneg hbase hw0.le
    refine ⟨(imp / par * ser) / w,
      -(((dp + rp) / vn) ^ 2 * ((imp / par * ser) / w)) * t,
      _, ?_, hr0, Or.inr ⟨w, rfl, rfl⟩, (hgets _).1, (hgets _).2.1,
      (hgets _).2.2, rfl, hd_le _ hr0⟩
    simp [ESRBatteryLossModel.update, himp, hpar, hser, hw, hdp1, hrp1, hvn1]

def c7store : Store :=
  ⟨[("cell_internal_impedance", 1), ("cells_in_parallel", 1),
    ("cells_in_series", 1), ("weather_temp_modifier", -1), ("drag_power", 1),
    ("rr_power", 0), ("battery_voltage_nominal", 1)]⟩

/-- Claim C7 counterexample: the claim's stated hypotheses all hold
(cell impedance `1 ≥ 0`, cell counts `1 > 0`, timestep `1 ≥ 0`) but a
negative temperature modifier (`-1`) makes `pack_resistance` negative, so
the ESR model returns `+1`, a *positive* energy delta — "always
non-positive" fails as stated. -/
theorem claim_C7_counterexample :
    (ESRBatteryLossModel.update c7store 1).1 = some 1 ∧
    c7store.get "cell_internal_impedance" = some 1 ∧ (0 : ℚ) ≤ 1 ∧
    c7store.get "cells_in_parallel" = some 1 ∧ (0 : ℚ) < 1 ∧
    c7store.get "cells_in_series" = some 1 ∧ ¬ ((1 : ℚ) ≤ 0) := by
  refine ⟨?_, rfl, by norm_num, rfl, by norm_num, rfl, by norm_num⟩
  simp [ESRBatteryLossModel.update, c7store, Store.get, Store.set, getEntry,
    setEntry]

def c7okstore : Store :=
  ⟨[("cell_internal_impedance", 2), ("cells_in_parallel", 4),
    ("cells_in_series", 3), ("drag_power", -5), ("rr_power", -1),
    ("battery_voltage_nominal", 2)]⟩

theorem claim_C7_witness :
    ∃ r d st', ESRBatteryLossModel.update c7okstore 1 = (some d, st') ∧
      0 ≤ r ∧
      ((c7okstore.get "weather_temp_modifier" = none ∧ r = 2 / 4 * 3) ∨
        (∃ w, c7okstore.get "weather_temp_modifier" = some w ∧
          r = (2 / 4 * 3) / w)) ∧
      st'.get "pack_resistance" = some r ∧
      st'.get "current_draw" = some (((-5) + (-1)) / 2) ∧
      st'.get "battery_power_loss" = some ((((-5) + (-1)) / 2) ^ 2 * r) ∧
      d = -((((-5) + (-1)) / 2) ^ 2 * r) * 1 ∧ d ≤ 0 :=
  claim_C7_esr_loss_model c7okstore 1 2 4 3 (-5) (-1) 2 rfl rfl rfl rfl rfl rfl
    (by norm_num) (by norm_num) (by norm_num) (by norm_num)
    (by intro w h; simp [c7okstore, Store.get, getEntry] at h)

end VehicleSim
